import Mathlib

/-!
Verification of the patch-history plugin (src/lib/index.js).

The plugin is embedded shallowly:

* Document states are flat JSON objects: association lists from field
  names to atomic JSON values.  The `data()` projection of a mongoose
  document (src/lib/index.js lines 46-59, which strips `_id`, the
  version key and timestamps) is the `data` field of `Doc`; the stripped
  identity is kept separately in `Doc.id`.
* The patch collection is a list of `Patch` records (the store); queries
  `count`, `find` + `sort` are list filters and an insertion sort.
* The external libraries the source calls are embedded with their
  documented behaviour on flat objects: `fast-json-patch`'s
  `compare`/`apply` (RFC 6902 add/replace/remove on object members,
  `apply` with validation failing on an unresolvable path) and lodash's
  `_.merge` (later source overrides the destination, destination is
  mutated in place and returned).
* Fallible operations return `Except PHError`.
-/

namespace MPatchHistory

/-- Atomic JSON values of a document field (flat documents suffice for
the properties under verification). -/
inductive JValue where
  | str (s : String)
  | num (n : Int)
  | bool (b : Bool)
  | null
deriving DecidableEq

/-- A plain JS object: association list from field names to values. -/
abbrev Obj := List (String × JValue)

/-- Field lookup on an object (first binding wins, as in a JS object
where keys are unique). -/
def objGet : Obj → String → Option JValue
  | [], _ => none
  | (k, v) :: rest, key => if key = k then some v else objGet rest key

/-- Assign a field on an object: replace the first binding of the key,
or append a new binding. -/
def objSet : Obj → String → JValue → Obj
  | [], k, v => [(k, v)]
  | (k', v') :: rest, k, v =>
      if k' = k then (k, v) :: rest else (k', v') :: objSet rest k v

/-- Delete a field from an object (first binding of the key). -/
def objRemove : Obj → String → Obj
  | [], _ => []
  | (k', v') :: rest, k => if k' = k then rest else (k', v') :: objRemove rest k

/-- Assign every field of `m` on `base`, left to right (mongoose
`document.set(obj)`: fields of `obj` are written onto the document,
fields of the document outside `obj` are untouched). -/
def objSetAll (base : Obj) (m : Obj) : Obj :=
  m.foldl (fun acc kv => objSet acc kv.1 kv.2) base

/-- The keys of an object are pairwise distinct (true of every actual
JS object). -/
def keysNodup (o : Obj) : Prop := (o.map Prod.fst).Nodup

instance (o : Obj) : Decidable (keysNodup o) :=
  inferInstanceAs (Decidable (o.map Prod.fst).Nodup)

/-- Order-independent structural equality of two objects: the same
field lookup everywhere. -/
def objEquiv (a b : Obj) : Prop := ∀ k, objGet a k = objGet b k

/-- One JSON-patch operation on a field path (RFC 6902 vocabulary used
by the source through `fast-json-patch`). -/
inductive Op where
  | add (path : String) (value : JValue)
  | replace (path : String) (value : JValue)
  | remove (path : String)
deriving DecidableEq

/-- `jsonpatch.compare(before, after)` on flat objects: a `remove` for
every field of `before` missing from `after`, a `replace` for every
field present in both with different values, then an `add` for every
field of `after` missing from `before`. -/
def jsDiff (before after : Obj) : List Op :=
  (before.filterMap (fun kv =>
    match objGet after kv.1 with
    | none => some (Op.remove kv.1)
    | some v2 => if v2 = kv.2 then none else some (Op.replace kv.1 v2))) ++
  (after.filterMap (fun kv =>
    match objGet before kv.1 with
    | none => some (Op.add kv.1 kv.2)
    | some _ => none))

/-- `_.merge(dst, src)` on flat objects: the value of `src` wins on
every key present in both, keys of `src` absent from `dst` are
appended; the result is the new contents of the (mutated) `dst`. -/
def jsMerge (dst src : Obj) : Obj :=
  dst.map (fun kv => (kv.1, (objGet src kv.1).getD kv.2)) ++
    src.filter (fun kv => (objGet dst kv.1).isNone)

/-- Errors surfaced by the plugin: the distinguished RollbackError
(src/lib/index.js lines 9-15), mongoose validation failures at patch
creation, and a `fast-json-patch` apply failure on an unresolvable
path. -/
inductive PHError where
  | rollbackErr (msg : String)
  | validationErr (msg : String)
  | applyFailed (path : String)
deriving DecidableEq

/-- A persisted patch record (the schema built by `createPatchSchema`,
src/lib/index.js lines 26-38): a monotonically orderable id (`_id`), a
creation date, the non-empty operation list, the parent document
reference, plus the configured included fields. -/
structure Patch where
  id : Nat
  date : Nat
  ops : List Op
  ref : Nat
  extra : Obj
deriving DecidableEq

/-- One entry of the `includes` option: a patch field `name`, whether it
is `required`, and the optional source property (`from`) it is copied
from on the owning document. -/
structure IncludeField where
  name : String
  required : Bool
  src : Option String
deriving DecidableEq

/-- The options object passed to the plugin, before defaulting
(`removePatches` may be omitted). -/
structure OptsIn where
  includes : List IncludeField
  removePatches : Option Bool
deriving DecidableEq

/-- The options after `_.merge({}, defaultOptions, opts)`
(src/lib/index.js lines 19-24). -/
structure Options where
  includes : List IncludeField
  removePatches : Bool
deriving DecidableEq

/-- `_.merge({}, defaultOptions, opts)`: `removePatches` defaults to
`true` and is overridden only when the caller supplies it. -/
def resolveOptions (o : OptsIn) : Options :=
  { includes := o.includes, removePatches := o.removePatches.getD true }

/-- An in-memory mongoose document instance: its identity, the `data()`
projection, the `_original` snapshot (src/lib/index.js lines 104-109),
transient instance properties (e.g. a `_user` written by a virtual
setter), and mongoose's `isNew` flag. -/
structure Doc where
  id : Nat
  data : Obj
  original : Obj
  tprops : Obj
  isNew : Bool
deriving DecidableEq

/-- `this[name]` on a document instance: a schema field of the data, or
else a transient instance property. -/
def docProp (doc : Doc) (k : String) : Option JValue :=
  match objGet doc.data k with
  | some v => some v
  | none => objGet doc.tprops k

/-- The value copied for one include entry: `this[type.from || name]`
(src/lib/index.js line 138). -/
def includeValue (doc : Doc) (i : IncludeField) : Option JValue :=
  docProp doc (i.src.getD i.name)

/-- `this.patches.create(data)` (src/lib/index.js lines 135-141):
assemble the patch from `ops`, `ref` and the configured includes;
mongoose validation rejects the record when a required included field
is missing on the document. -/
def mkPatch (opts : Options) (doc : Doc) (ops : List Op) (pid pdat : Nat) :
    Except PHError Patch :=
  if ∀ i ∈ opts.includes, i.required = true → (includeValue doc i).isSome then
    Except.ok { id := pid, date := pdat, ops := ops, ref := doc.id,
                extra := opts.includes.filterMap
                  (fun i => (includeValue doc i).map (fun v => (i.name, v))) }
  else Except.error (PHError.validationErr "required include missing")

/-- The operation list computed by the pre-save hook:
`jsonpatch.compare(this.isNew ? \x7b\x7d : this._original, this.data())`
(src/lib/index.js line 128). -/
def saveOps (doc : Doc) : List Op :=
  jsDiff (if doc.isNew then [] else doc.original) doc.data

/-- `document.save()` with the plugin installed (pre-save hook lines
126-142 and the post-save snapshot lines 104-109): compute the diff
against the snapshot (the empty object for a new document); when it is
empty, save without touching the patch store; otherwise persist a new
patch record — failing the whole save on a patch validation error —
then commit the document and refresh the snapshot.  `pid`/`pdat` are
the id and date the store assigns to the new record. -/
def save (opts : Options) (doc : Doc) (store : List Patch) (pid pdat : Nat) :
    Except PHError (Doc × List Patch) :=
  if saveOps doc = [] then
    Except.ok ({ doc with isNew := false, original := doc.data }, store)
  else
    match mkPatch opts doc (saveOps doc) pid pdat with
    | Except.error e => Except.error e
    | Except.ok p =>
        Except.ok ({ doc with isNew := false, original := doc.data }, store ++ [p])

/-- `this.patches.count(\x7bref: this.id, _id: \x7b$gte: patchId\x7d\x7d)`
(src/lib/index.js line 63). -/
def countGe (store : List Patch) (ref t : Nat) : Nat :=
  (store.filter (fun p => decide (p.ref = ref ∧ t ≤ p.id))).length

/-- `this.patches.find(\x7bref: this.id, _id: \x7b$lte: patchId\x7d\x7d).sort(\x7bdate: 1\x7d)`
(src/lib/index.js line 69): the document's patches with id at most `t`,
sorted ascending by creation date. -/
def fetchLe (store : List Patch) (ref t : Nat) : List Patch :=
  List.insertionSort (fun p q => p.date ≤ q.date)
    (store.filter (fun p => decide (p.ref = ref ∧ p.id ≤ t)))

/-- `jsonpatch.apply(state, [op], true)` for a single operation on a
flat object: `add` assigns the member, `replace` and `remove` require
the member to exist (validation failure otherwise). -/
def applyOp (st : Obj) : Op → Except PHError Obj
  | Op.add k v => Except.ok (objSet st k v)
  | Op.replace k v =>
      match objGet st k with
      | some _ => Except.ok (objSet st k v)
      | none => Except.error (PHError.applyFailed k)
  | Op.remove k =>
      match objGet st k with
      | some _ => Except.ok (objRemove st k)
      | none => Except.error (PHError.applyFailed k)

/-- Apply a list of operations sequentially. -/
def applyOps (st : Obj) : List Op → Except PHError Obj
  | [] => Except.ok st
  | op :: ops =>
      match applyOp st op with
      | Except.ok st2 => applyOps st2 ops
      | Except.error e => Except.error e

/-- `patches.forEach(patch => jsonpatch.apply(state, patch.ops, true))`
(src/lib/index.js line 76): replay the ordered patches against `st`. -/
def applyPatches (st : Obj) : List Patch → Except PHError Obj
  | [] => Except.ok st
  | p :: ps =>
      match applyOps st p.ops with
      | Except.ok st2 => applyPatches st2 ps
      | Except.error e => Except.error e

/-- `this.set(obj)`: write every field of `obj` onto the document's
data, leaving its other fields in place. -/
def docSet (doc : Doc) (m : Obj) : Doc :=
  { doc with data := objSetAll doc.data m }

/-- `document.rollback(patchId, data)` (src/lib/index.js lines 62-81):
count this document's patches with id at least `patchId` and reject
with a RollbackError when the count is exactly 1; fetch its patches
with id at most `patchId` ascending by date and reject when none has id
`patchId`; replay them against the empty object; `this.set(_.merge(data,
state)).save()`.  The returned triple is the saved document, the patch
store after the save, and the contents of the caller-supplied `data`
object after the call (lodash `merge` mutates its first argument; it is
`none` when the caller passed nothing, in which case `merge` builds a
fresh object). -/
def rollback (opts : Options) (doc : Doc) (store : List Patch) (patchId : Nat)
    (extra : Option Obj) (pid pdat : Nat) :
    Except PHError (Doc × List Patch × Option Obj) :=
  if countGe store doc.id patchId = 1 then
    Except.error (PHError.rollbackErr "rollback to latest patch")
  else if ∀ p ∈ fetchLe store doc.id patchId, p.id ≠ patchId then
    Except.error (PHError.rollbackErr "patch does not exist")
  else
    match applyPatches [] (fetchLe store doc.id patchId) with
    | Except.error e => Except.error e
    | Except.ok state =>
        match save opts (docSet doc (jsMerge (extra.getD []) state)) store pid pdat with
        | Except.error e => Except.error e
        | Except.ok (doc2, store2) =>
            Except.ok (doc2, store2, extra.map (fun d => jsMerge d state))

/-- `document.remove()` with the plugin installed (pre-remove hook,
src/lib/index.js lines 113-120): when `removePatches` is enabled, every
patch record whose `ref` is the document's id is removed from the
store; otherwise the store is untouched. -/
def removeDoc (opts : Options) (doc : Doc) (store : List Patch) : List Patch :=
  if opts.removePatches then store.filter (fun p => decide (p.ref ≠ doc.id))
  else store

/-- `options.modelName || model.modelName + 'Patches'` (src/lib/index.js
line 89).  The raw plugin options object is dynamic, so it is taken
here as a string-keyed map; a supplied but empty `modelName` is falsy
in JS and falls through to the derived name. -/
def getPatchModelName (options : List (String × String)) (docModelName : String) :
    String :=
  match options.lookup "modelName" with
  | some s => if s = "" then docModelName ++ "Patches" else s
  | none => docModelName ++ "Patches"

/-- The same derivation following the spec's words (§6: a configuration
option named `patchModelName` overrides, otherwise
`<DocumentType>Patches`), to compare against `getPatchModelName` from
the source. -/
def getPatchModelNameSpec (options : List (String × String)) (docModelName : String) :
    String :=
  (options.lookup "patchModelName").getD (docModelName ++ "Patches")

/-- Options with no includes and cascading removal enabled (the
resolved default configuration). -/
def opts0 : Options := { includes := [], removePatches := true }

/-! ### Lemmas about flat objects -/

theorem objGet_eq_some_of_mem (o : Obj) (k : String) (v : JValue)
    (hnd : keysNodup o) (hm : (k, v) ∈ o) : objGet o k = some v := by
  induction o with
  | nil => cases hm
  | cons kv rest ih =>
      obtain ⟨k0, v0⟩ := kv
      rcases List.mem_cons.mp hm with h | h
      · cases h
        simp [objGet]
      · have hk : k ≠ k0 := by
          rintro rfl
          exact (List.nodup_cons.mp hnd).1 (List.mem_map.mpr ⟨(k, v), h, rfl⟩)
        simp only [objGet, if_neg hk]
        exact ih (List.nodup_cons.mp hnd).2 h

theorem objGet_isSome_of_mem (o : Obj) (k : String) (v : JValue)
    (hm : (k, v) ∈ o) : (objGet o k).isSome := by
  induction o with
  | nil => cases hm
  | cons kv rest ih =>
      obtain ⟨k0, v0⟩ := kv
      rcases List.mem_cons.mp hm with h | h
      · cases h; simp [objGet]
      · by_cases hk : k = k0 <;> simp [objGet, hk, ih h]

theorem mem_keys_of_objGet_eq_some (o : Obj) (k : String) (v : JValue)
    (h : objGet o k = some v) : k ∈ o.map Prod.fst := by
  induction o with
  | nil => simp [objGet] at h
  | cons kv rest ih =>
      obtain ⟨k0, v0⟩ := kv
      by_cases hk : k = k0
      · simp [hk]
      · simp only [objGet, if_neg hk] at h
        simp [ih h]

theorem objGet_eq_none_of_not_mem_keys (o : Obj) (k : String)
    (h : k ∉ o.map Prod.fst) : objGet o k = none := by
  induction o with
  | nil => rfl
  | cons kv rest ih =>
      obtain ⟨k0, v0⟩ := kv
      simp only [List.map_cons, List.mem_cons] at h
      push_neg at h
      simp only [objGet, if_neg h.1]
      exact ih h.2

theorem objGet_append (a b : Obj) (k : String) :
    objGet (a ++ b) k =
      match objGet a k with
      | some v => some v
      | none => objGet b k := by
  induction a with
  | nil => simp [objGet]
  | cons kv rest ih =>
      obtain ⟨k0, v0⟩ := kv
      by_cases hk : k = k0 <;> simp [objGet, hk, ih]

theorem objSet_get_self (o : Obj) (k : String) (v : JValue) :
    objGet (objSet o k v) k = some v := by
  induction o with
  | nil => simp [objSet, objGet]
  | cons kv rest ih =>
      obtain ⟨k0, v0⟩ := kv
      by_cases hk : k0 = k
      · simp [objSet, hk, objGet]
      · have hk' : k ≠ k0 := fun h => hk h.symm
        simp [objSet, hk, objGet, hk', ih]

theorem objSet_get_other (o : Obj) (k k' : String) (v : JValue) (h : k' ≠ k) :
    objGet (objSet o k v) k' = objGet o k' := by
  induction o with
  | nil => simp [objSet, objGet, h]
  | cons kv rest ih =>
      obtain ⟨k0, v0⟩ := kv
      by_cases hk : k0 = k
      · subst hk
        simp [objSet, objGet, h]
      · by_cases hk2 : k' = k0 <;> simp [objSet, hk, objGet, hk2, ih]

theorem objSetAll_get_of_none (o m : Obj) (k : String) (h : objGet m k = none) :
    objGet (objSetAll o m) k = objGet o k := by
  induction m generalizing o with
  | nil => rfl
  | cons kv rest ih =>
      obtain ⟨k0, v0⟩ := kv
      by_cases hk : k = k0
      · simp [objGet, hk] at h
      · simp only [objGet, if_neg hk] at h
        simp only [objSetAll, List.foldl_cons]
        have := ih (objSet o k0 v0) h
        simp only [objSetAll] at this
        rw [this, objSet_get_other o k0 k v0 hk]

theorem objSetAll_get_of_some (o m : Obj) (k : String) (v : JValue)
    (hnd : keysNodup m) (h : objGet m k = some v) :
    objGet (objSetAll o m) k = some v := by
  induction m generalizing o with
  | nil => simp [objGet] at h
  | cons kv rest ih =>
      obtain ⟨k0, v0⟩ := kv
      simp only [objSetAll, List.foldl_cons]
      by_cases hk : k = k0
      · subst hk
        simp only [objGet, if_pos rfl] at h
        cases h
        have hnone : objGet rest k = none := by
          apply objGet_eq_none_of_not_mem_keys
          exact (List.nodup_cons.mp hnd).1
        have := objSetAll_get_of_none (objSet o k v) rest k hnone
        simp only [objSetAll] at this
        rw [this, objSet_get_self]
      · simp only [objGet, if_neg hk] at h
        exact ih (objSet o k0 v0) (List.nodup_cons.mp hnd).2 h

/-! ### Lemmas about the embedded lodash merge -/

theorem jsMerge_nil (s : Obj) : jsMerge [] s = s := by
  simp only [jsMerge, List.map_nil, List.nil_append]
  rw [List.filter_eq_self.mpr]
  intro kv _
  simp [objGet]

theorem objGet_map_override (d s : Obj) (k : String) :
    objGet (d.map (fun kv => (kv.1, (objGet s kv.1).getD kv.2))) k =
      (objGet d k).map (fun w => (objGet s k).getD w) := by
  induction d with
  | nil => rfl
  | cons kv rest ih =>
      obtain ⟨k0, v0⟩ := kv
      by_cases hk : k = k0
      · subst hk
        simp [objGet]
      · simp [objGet, hk, ih]

theorem objGet_filter_none (s : Obj) (p : String × JValue → Bool) (k : String)
    (h : objGet s k = none) : objGet (s.filter p) k = none := by
  induction s with
  | nil => rfl
  | cons kv rest ih =>
      obtain ⟨k0, v0⟩ := kv
      by_cases hk : k = k0
      · simp [objGet, hk] at h
      · simp only [objGet, if_neg hk] at h
        by_cases hp : p (k0, v0) <;> simp [List.filter_cons, hp, objGet, hk, ih h]

theorem objGet_filter_keytrue (s : Obj) (p : String × JValue → Bool) (k : String)
    (hall : ∀ v, p (k, v) = true) : objGet (s.filter p) k = objGet s k := by
  induction s with
  | nil => rfl
  | cons kv rest ih =>
      obtain ⟨k0, v0⟩ := kv
      by_cases hk : k = k0
      · subst hk
        simp [List.filter_cons, hall v0, objGet]
      · by_cases hp : p (k0, v0) <;> simp [List.filter_cons, hp, objGet, hk, ih]

theorem jsMerge_get_of_some (d s : Obj) (k : String) (v : JValue)
    (h : objGet s k = some v) : objGet (jsMerge d s) k = some v := by
  unfold jsMerge
  rw [objGet_append]
  rcases hd : objGet d k with _ | w
  · rw [objGet_map_override, hd]
    simp only [Option.map_none']
    rw [objGet_filter_keytrue]
    · exact h
    · intro v'
      simp [hd]
  · rw [objGet_map_override, hd]
    simp [h]

theorem jsMerge_get_of_none (d s : Obj) (k : String)
    (h : objGet s k = none) : objGet (jsMerge d s) k = objGet d k := by
  unfold jsMerge
  rw [objGet_append, objGet_map_override]
  rcases hd : objGet d k with _ | w
  · simp only [Option.map_none']
    rw [objGet_filter_none s _ k h]
  · simp [h]

theorem keysNodup_jsMerge (d s : Obj) (hd : keysNodup d) (hs : keysNodup s) :
    keysNodup (jsMerge d s) := by
  unfold jsMerge keysNodup
  rw [List.map_append, List.nodup_append]
  refine ⟨?_, ?_, ?_⟩
  · have hcomp : (d.map (fun kv => (kv.1, (objGet s kv.1).getD kv.2))).map Prod.fst
        = d.map Prod.fst := by
      rw [List.map_map]; rfl
    rw [hcomp]; exact hd
  · exact List.Nodup.sublist ((List.filter_sublist s).map Prod.fst) hs
  · intro k hk1 hk2
    rw [List.map_map] at hk1
    obtain ⟨kv0, hkv0, hf0⟩ := List.mem_map.mp hk1
    obtain ⟨kv2, hkv2, hf2⟩ := List.mem_map.mp hk2
    have hpred : objGet d kv2.1 = none := by
      simpa using (List.mem_filter.mp hkv2).2
    have hsome : (objGet d k).isSome := by
      rw [← hf0]
      exact objGet_isSome_of_mem d kv0.1 kv0.2 hkv0
    rw [hf2] at hpred
    rw [hpred] at hsome
    simp at hsome

/-! ### Lemmas about the embedded diff, fetch and save -/

theorem jsDiff_nil_left (o : Obj) :
    jsDiff [] o = o.map (fun kv => Op.add kv.1 kv.2) := by
  unfold jsDiff
  simp only [List.filterMap_nil, List.nil_append]
  induction o with
  | nil => rfl
  | cons kv rest ih =>
      simp only [List.filterMap_cons, objGet, List.map_cons]
      exact congrArg (fun l => Op.add kv.1 kv.2 :: l) ih

theorem jsDiff_eq_nil_of_equiv (a b : Obj) (hnd : keysNodup a) (h : objEquiv a b) :
    jsDiff a b = [] := by
  unfold jsDiff
  rw [List.append_eq_nil]
  constructor
  · rw [List.filterMap_eq_nil_iff]
    intro kv hkv
    have hv : objGet b kv.1 = some kv.2 := by
      rw [← h kv.1]
      exact objGet_eq_some_of_mem a kv.1 kv.2 hnd hkv
    simp [hv]
  · rw [List.filterMap_eq_nil_iff]
    intro kv hkv
    have hb : (objGet b kv.1).isSome := objGet_isSome_of_mem b kv.1 kv.2 hkv
    have ha : (objGet a kv.1).isSome := by rw [h kv.1]; exact hb
    rcases hs : objGet a kv.1 with _ | w
    · rw [hs] at ha; simp at ha
    · simp [hs]

theorem mem_fetchLe (store : List Patch) (ref t : Nat) (p : Patch) :
    p ∈ fetchLe store ref t ↔ p ∈ store ∧ p.ref = ref ∧ p.id ≤ t := by
  unfold fetchLe
  rw [(List.perm_insertionSort _ _).mem_iff, List.mem_filter]
  simp

theorem save_ok_empty (opts : Options) (doc : Doc) (store : List Patch)
    (pid pdat : Nat) (he : saveOps doc = []) :
    save opts doc store pid pdat =
      Except.ok ({ doc with isNew := false, original := doc.data }, store) := by
  unfold save
  rw [if_pos he]

theorem save_ok_nonempty (opts : Options) (doc : Doc) (store : List Patch)
    (pid pdat : Nat) (hne : saveOps doc ≠ [])
    (hval : ∀ i ∈ opts.includes, i.required = true → (includeValue doc i).isSome) :
    save opts doc store pid pdat =
      Except.ok ({ doc with isNew := false, original := doc.data },
        store ++ [{ id := pid, date := pdat, ops := saveOps doc, ref := doc.id,
                    extra := opts.includes.filterMap
                      (fun i => (includeValue doc i).map (fun v => (i.name, v))) }]) := by
  unfold save mkPatch
  rw [if_neg hne, if_pos hval]

theorem save_error_of_mkPatch_error (opts : Options) (doc : Doc) (store : List Patch)
    (pid pdat : Nat) (e : PHError) (hne : saveOps doc ≠ [])
    (hfail : mkPatch opts doc (saveOps doc) pid pdat = Except.error e) :
    save opts doc store pid pdat = Except.error e := by
  unfold save
  rw [if_neg hne, hfail]

theorem save_ok_shape (opts : Options) (doc : Doc) (store : List Patch)
    (pid pdat : Nat) (doc2 : Doc) (store2 : List Patch)
    (h : save opts doc store pid pdat = Except.ok (doc2, store2)) :
    doc2 = { doc with isNew := false, original := doc.data }
      ∧ (store2 = store ∨ ∃ p, store2 = store ++ [p]) := by
  unfold save at h
  split at h
  · simp only [Except.ok.injEq, Prod.mk.injEq] at h
    exact ⟨h.1.symm, Or.inl h.2.symm⟩
  · split at h
    · simp at h
    · simp only [Except.ok.injEq, Prod.mk.injEq] at h
      exact ⟨h.1.symm, Or.inr ⟨_, h.2.symm⟩⟩

theorem saveOps_docSet (doc : Doc) (m : Obj) (hnew : doc.isNew = false) :
    saveOps (docSet doc m) = jsDiff doc.original (objSetAll doc.data m) := by
  simp [saveOps, docSet, hnew]

theorem rollback_eval (opts : Options) (doc : Doc) (store : List Patch)
    (t : Nat) (extra : Option Obj) (pid pdat : Nat) (S : Obj)
    (hcnt : countGe store doc.id t ≠ 1)
    (hfound : ¬ ∀ p ∈ fetchLe store doc.id t, p.id ≠ t)
    (happ : applyPatches [] (fetchLe store doc.id t) = Except.ok S) :
    rollback opts doc store t extra pid pdat =
      match save opts (docSet doc (jsMerge (extra.getD []) S)) store pid pdat with
      | Except.error e => Except.error e
      | Except.ok (doc2, store2) =>
          Except.ok (doc2, store2, extra.map (fun d => jsMerge d S)) := by
  unfold rollback
  rw [if_neg hcnt, if_neg hfound, happ]

theorem rollback_ok_inv (opts : Options) (doc : Doc) (store : List Patch)
    (t : Nat) (extra : Option Obj) (pid pdat : Nat)
    (doc2 : Doc) (store2 : List Patch) (ex : Option Obj) (S : Obj)
    (happ : applyPatches [] (fetchLe store doc.id t) = Except.ok S)
    (hok : rollback opts doc store t extra pid pdat = Except.ok (doc2, store2, ex)) :
    doc2.data = objSetAll doc.data (jsMerge (extra.getD []) S)
      ∧ ex = extra.map (fun d => jsMerge d S)
      ∧ (store2 = store ∨ ∃ p, store2 = store ++ [p]) := by
  by_cases h1 : countGe store doc.id t = 1
  · unfold rollback at hok
    rw [if_pos h1] at hok
    cases hok
  by_cases h2 : ∀ p ∈ fetchLe store doc.id t, p.id ≠ t
  · unfold rollback at hok
    rw [if_neg h1, if_pos h2] at hok
    cases hok
  rw [rollback_eval opts doc store t extra pid pdat S h1 h2 happ] at hok
  rcases hsv : save opts (docSet doc (jsMerge (extra.getD []) S)) store pid pdat
    with e | ⟨a, b⟩
  · rw [hsv] at hok
    simp at hok
  · rw [hsv] at hok
    have hsh := save_ok_shape _ _ _ _ _ _ _ hsv
    simp only [Except.ok.injEq, Prod.mk.injEq] at hok
    obtain ⟨ha, hb, hex⟩ := hok
    refine ⟨?_, hex.symm, ?_⟩
    · rw [← ha, hsh.1]
      rfl
    · rw [← hb]
      exact hsh.2

/-! ### Concrete fixtures (the v1/v2/v3 history of the spec's rollback example) -/

def patchV1 : Patch :=
  { id := 1, date := 1, ops := [Op.add "title" (JValue.str "v1")], ref := 1, extra := [] }

def patchV2 : Patch :=
  { id := 2, date := 2, ops := [Op.replace "title" (JValue.str "v2")], ref := 1, extra := [] }

def patchV3 : Patch :=
  { id := 3, date := 3, ops := [Op.replace "title" (JValue.str "v3")], ref := 1, extra := [] }

def docV2 : Doc :=
  { id := 1, data := [("title", JValue.str "v2")],
    original := [("title", JValue.str "v2")], tprops := [], isNew := false }

def docV3 : Doc :=
  { id := 1, data := [("title", JValue.str "v3")],
    original := [("title", JValue.str "v3")], tprops := [], isNew := false }

/-! ### Claim theorems -/

/-- C2: if the count of this document's patch records with id at least
`targetPatchId` equals exactly 1, `rollback` rejects with a
RollbackError (no replay and no save happen: the error is returned
before the fetch, replay and save steps). -/
theorem rollback_to_latest_rejected (opts : Options) (doc : Doc) (store : List Patch)
    (t : Nat) (extra : Option Obj) (pid pdat : Nat)
    (h : countGe store doc.id t = 1) :
    rollback opts doc store t extra pid pdat =
      Except.error (PHError.rollbackErr "rollback to latest patch") := by
  unfold rollback
  rw [if_pos h]

/-- Witness for C2: a document whose only patch is its creation patch
rejects a rollback to that patch's id. -/
theorem rollback_to_latest_rejected_witness :
    countGe [patchV1] docV2.id 1 = 1
    ∧ rollback opts0 docV2 [patchV1] 1 none 9 9 =
        Except.error (PHError.rollbackErr "rollback to latest patch") :=
  ⟨by decide, rollback_to_latest_rejected opts0 docV2 [patchV1] 1 none 9 9 (by decide)⟩

/-- C3: if no patch record of this document has id equal to the target
(in particular when the document has zero patches), `rollback` rejects
with a RollbackError, leaving the document and the patch store
unchanged (an error result carries no new state). -/
theorem rollback_missing_patch_rejected (opts : Options) (doc : Doc) (store : List Patch)
    (t : Nat) (extra : Option Obj) (pid pdat : Nat)
    (h : ∀ p ∈ store, p.ref = doc.id → p.id ≠ t) :
    ∃ msg, rollback opts doc store t extra pid pdat =
      Except.error (PHError.rollbackErr msg) := by
  by_cases hc : countGe store doc.id t = 1
  · exact ⟨"rollback to latest patch", by unfold rollback; rw [if_pos hc]⟩
  · refine ⟨"patch does not exist", ?_⟩
    have hall : ∀ p ∈ fetchLe store doc.id t, p.id ≠ t := by
      intro p hp
      have hm := (mem_fetchLe store doc.id t p).mp hp
      exact h p hm.1 hm.2.1
    unfold rollback
    rw [if_neg hc, if_pos hall]

/-- Witness for C3: a document with zero patches rejects any rollback. -/
theorem rollback_missing_patch_rejected_witness :
    (∀ p ∈ ([] : List Patch), p.ref = docV3.id → p.id ≠ 5)
    ∧ ∃ msg, rollback opts0 docV3 [] 5 none 9 9 =
        Except.error (PHError.rollbackErr msg) :=
  ⟨by simp,
    rollback_missing_patch_rejected opts0 docV3 [] 5 none 9 9 (by simp)⟩

/-- C6: saving a document whose `data()` is structurally unchanged since
the last snapshot computes an empty diff, creates no patch record, and
completes normally with the patch store exactly as it was. -/
theorem save_unchanged_no_patch (opts : Options) (doc : Doc) (store : List Patch)
    (pid pdat : Nat) (hnew : doc.isNew = false)
    (hnd : keysNodup doc.original) (h : objEquiv doc.original doc.data) :
    saveOps doc = []
    ∧ save opts doc store pid pdat =
        Except.ok ({ doc with isNew := false, original := doc.data }, store) := by
  have he : saveOps doc = [] := by
    have hs : saveOps doc = jsDiff doc.original doc.data := by
      simp [saveOps, hnew]
    rw [hs]
    exact jsDiff_eq_nil_of_equiv doc.original doc.data hnd h
  exact ⟨he, save_ok_empty opts doc store pid pdat he⟩

/-- Witness for C6: resaving the unchanged v3 document leaves the
three-patch history as it was. -/
theorem save_unchanged_no_patch_witness :
    docV3.isNew = false ∧ keysNodup docV3.original ∧ objEquiv docV3.original docV3.data
    ∧ saveOps docV3 = []
    ∧ save opts0 docV3 [patchV1, patchV2, patchV3] 9 9 =
        Except.ok ({ docV3 with isNew := false, original := docV3.data },
          [patchV1, patchV2, patchV3]) :=
  ⟨rfl, by decide, fun k => rfl,
    (save_unchanged_no_patch opts0 docV3 [patchV1, patchV2, patchV3] 9 9 rfl
      (by decide) (fun k => rfl)).1,
    (save_unchanged_no_patch opts0 docV3 [patchV1, patchV2, patchV3] 9 9 rfl
      (by decide) (fun k => rfl)).2⟩

/-- C5: for a newly created document the diff baseline is the empty
object (not any snapshot), so the computed operations are exactly one
`add` per present field, and the save appends exactly one patch record
carrying them. -/
theorem save_new_doc_creates_add_patch (opts : Options) (doc : Doc) (store : List Patch)
    (pid pdat : Nat) (hnew : doc.isNew = true) (hne : doc.data ≠ [])
    (hval : ∀ i ∈ opts.includes, i.required = true → (includeValue doc i).isSome) :
    saveOps doc = jsDiff [] doc.data
    ∧ saveOps doc = doc.data.map (fun kv => Op.add kv.1 kv.2)
    ∧ save opts doc store pid pdat =
        Except.ok ({ doc with isNew := false, original := doc.data },
          store ++ [{ id := pid, date := pdat,
                      ops := doc.data.map (fun kv => Op.add kv.1 kv.2), ref := doc.id,
                      extra := opts.includes.filterMap
                        (fun i => (includeValue doc i).map (fun v => (i.name, v))) }]) := by
  have h1 : saveOps doc = jsDiff [] doc.data := by simp [saveOps, hnew]
  have h2 : saveOps doc = doc.data.map (fun kv => Op.add kv.1 kv.2) := by
    rw [h1, jsDiff_nil_left]
  refine ⟨h1, h2, ?_⟩
  have hne2 : saveOps doc ≠ [] := by
    rw [h2]
    simpa using hne
  have hsv := save_ok_nonempty opts doc store pid pdat hne2 hval
  rw [h2] at hsv
  exact hsv

/-- Witness for C5: creating a document with the single field
`title = "foo"` produces exactly one patch whose operations are
`[add /title "foo"]` (even though the stale `original` field is
non-empty, it is not used as the baseline). -/
theorem save_new_doc_creates_add_patch_witness :
    ({ id := 1, data := [("title", JValue.str "foo")],
       original := [("junk", JValue.null)], tprops := [], isNew := true } : Doc).isNew = true
    ∧ ({ id := 1, data := [("title", JValue.str "foo")],
         original := [("junk", JValue.null)], tprops := [], isNew := true } : Doc).data ≠ []
    ∧ save opts0
        { id := 1, data := [("title", JValue.str "foo")],
          original := [("junk", JValue.null)], tprops := [], isNew := true } [] 5 5 =
      Except.ok
        ({ id := 1, data := [("title", JValue.str "foo")],
           original := [("title", JValue.str "foo")], tprops := [], isNew := false },
         [{ id := 5, date := 5, ops := [Op.add "title" (JValue.str "foo")],
            ref := 1, extra := [] }]) :=
  ⟨rfl, by decide,
    (save_new_doc_creates_add_patch opts0
      { id := 1, data := [("title", JValue.str "foo")],
        original := [("junk", JValue.null)], tprops := [], isNew := true } [] 5 5
      rfl (by decide) (by simp [opts0])).2.2⟩

/-- C7: when persisting the patch record fails during a save (a required
included field is missing), the save itself fails with that error and
no success result exists; moreover every successful save has refreshed
the snapshot to the saved data (the snapshot is updated only on
success, so a save yields a consistent pair or neither). -/
theorem save_fails_on_patch_error (opts : Options) (doc : Doc) (store : List Patch)
    (pid pdat : Nat) (e : PHError)
    (hne : saveOps doc ≠ [])
    (hfail : mkPatch opts doc (saveOps doc) pid pdat = Except.error e) :
    save opts doc store pid pdat = Except.error e
    ∧ (∀ r : Doc × List Patch, save opts doc store pid pdat ≠ Except.ok r)
    ∧ ∀ (opts2 : Options) (doc2 : Doc) (store2 : List Patch) (pid2 pdat2 : Nat)
        (d : Doc) (s : List Patch),
        save opts2 doc2 store2 pid2 pdat2 = Except.ok (d, s) → d.original = d.data := by
  have h1 := save_error_of_mkPatch_error opts doc store pid pdat e hne hfail
  refine ⟨h1, ?_, ?_⟩
  · intro r hr
    rw [h1] at hr
    cases hr
  · intro opts2 doc2 store2 pid2 pdat2 d s hs
    have hd := (save_ok_shape opts2 doc2 store2 pid2 pdat2 d s hs).1
    rw [hd]

/-- Witness for C7: a schema with a required include `user` copied from
the transient `_user` property fails the save of a document that lacks
it. -/
theorem save_fails_on_patch_error_witness :
    saveOps { id := 2, data := [("text", JValue.str "wat")],
              original := [], tprops := [], isNew := true } ≠ []
    ∧ mkPatch
        { includes := [{ name := "user", required := true, src := some "_user" }],
          removePatches := false }
        { id := 2, data := [("text", JValue.str "wat")],
          original := [], tprops := [], isNew := true }
        (saveOps { id := 2, data := [("text", JValue.str "wat")],
                   original := [], tprops := [], isNew := true }) 5 5 =
      Except.error (PHError.validationErr "required include missing")
    ∧ save
        { includes := [{ name := "user", required := true, src := some "_user" }],
          removePatches := false }
        { id := 2, data := [("text", JValue.str "wat")],
          original := [], tprops := [], isNew := true } [] 5 5 =
      Except.error (PHError.validationErr "required include missing") :=
  ⟨by decide, by rfl,
    (save_fails_on_patch_error
      { includes := [{ name := "user", required := true, src := some "_user" }],
        removePatches := false }
      { id := 2, data := [("text", JValue.str "wat")],
        original := [], tprops := [], isNew := true } [] 5 5
      (PHError.validationErr "required include missing") (by decide) (by rfl)).1⟩

/-- C8: `removePatches` defaults to true; with it enabled, removal
leaves no patch record whose `ref` is the removed document's id, and
with it disabled, removal leaves the patch store untouched. -/
theorem remove_patches_cascade (oin : OptsIn) (doc : Doc) (store : List Patch) :
    (resolveOptions { includes := [], removePatches := none }).removePatches = true
    ∧ ((resolveOptions oin).removePatches = true →
        ∀ p ∈ removeDoc (resolveOptions oin) doc store, p.ref ≠ doc.id)
    ∧ ((resolveOptions oin).removePatches = false →
        removeDoc (resolveOptions oin) doc store = store) := by
  refine ⟨rfl, ?_, ?_⟩
  · intro ht p hp
    unfold removeDoc at hp
    rw [ht] at hp
    simp only [if_true] at hp
    exact of_decide_eq_true (List.mem_filter.mp hp).2
  · intro hf
    unfold removeDoc
    rw [hf]
    simp

/-- Witness for C8: cascading removal empties the three-patch history;
disabling it preserves the history. -/
theorem remove_patches_cascade_witness :
    removeDoc (resolveOptions { includes := [], removePatches := some true }) docV3
      [patchV1, patchV2, patchV3] = []
    ∧ (∀ p ∈ removeDoc (resolveOptions { includes := [], removePatches := some true }) docV3
        [patchV1, patchV2, patchV3], p.ref ≠ docV3.id)
    ∧ removeDoc (resolveOptions { includes := [], removePatches := some false }) docV3
        [patchV1, patchV2, patchV3] = [patchV1, patchV2, patchV3] :=
  ⟨by decide,
    (remove_patches_cascade { includes := [], removePatches := some true } docV3
      [patchV1, patchV2, patchV3]).2.1 rfl,
    (remove_patches_cascade { includes := [], removePatches := some false } docV3
      [patchV1, patchV2, patchV3]).2.2 rfl⟩

/-- Counterexample for C9: supplying an option named `patchModelName`
has no effect on the source's derivation (the source reads the option
`modelName`), while the spec's wording would make it override. -/
theorem patch_model_name_cex :
    getPatchModelName [("patchModelName", "Custom")] "Post" = "PostPatches"
    ∧ getPatchModelNameSpec [("patchModelName", "Custom")] "Post" = "Custom"
    ∧ "PostPatches" ≠ "Custom" :=
  ⟨rfl, rfl, by decide⟩

/-- C9 (amended): the patch collection's model identifier is taken from
the configuration option named `modelName` when supplied and non-empty,
and otherwise derived as the document type's model name with the suffix
"Patches" appended. -/
theorem patch_model_name_amended (options : List (String × String))
    (docModelName s : String) :
    (options.lookup "modelName" = some s → s ≠ "" →
      getPatchModelName options docModelName = s)
    ∧ (options.lookup "modelName" = none →
      getPatchModelName options docModelName = docModelName ++ "Patches") := by
  constructor
  · intro h hs
    unfold getPatchModelName
    rw [h]
    show (if s = "" then docModelName ++ "Patches" else s) = s
    rw [if_neg hs]
  · intro h
    unfold getPatchModelName
    rw [h]

/-- Witness for C9 (amended): `modelName` overrides; with no options the
name for a `Post` model is `PostPatches`. -/
theorem patch_model_name_amended_witness :
    ([("modelName", "CustomColl")] : List (String × String)).lookup "modelName" =
      some "CustomColl"
    ∧ "CustomColl" ≠ ""
    ∧ getPatchModelName [("modelName", "CustomColl")] "Post" = "CustomColl"
    ∧ getPatchModelName [] "Post" = "PostPatches" :=
  ⟨rfl, by decide,
    (patch_model_name_amended [("modelName", "CustomColl")] "Post" "CustomColl").1
      rfl (by decide),
    (patch_model_name_amended [] "Post" "CustomColl").2 rfl⟩

/-- A two-patch history whose second patch added a field: rolling this
document back to the first patch leaves its `extra` field in place and
appends no new patch, because `document.set` does not clear fields
outside the replayed state and the resulting diff is empty. -/
def docWithExtra : Doc :=
  { id := 1, data := [("title", JValue.str "v1"), ("extra", JValue.str "e")],
    original := [("title", JValue.str "v1"), ("extra", JValue.str "e")],
    tprops := [], isNew := false }

def patchAddExtra : Patch :=
  { id := 2, date := 2, ops := [Op.add "extra" (JValue.str "e")], ref := 1, extra := [] }

/-- Counterexample for C1: rolling `docWithExtra` back to its first
patch (a valid non-latest target: two patches have id at least 1)
succeeds, yet the document's data afterwards is not the replayed
historical state (the later-added `extra` field survives) and no new
patch record is appended (the store still has exactly its two original
records, not three). -/
theorem rollback_c1_cex :
    countGe [patchV1, patchAddExtra] docWithExtra.id 1 = 2
    ∧ (patchV1 ∈ [patchV1, patchAddExtra] ∧ patchV1.ref = docWithExtra.id
        ∧ patchV1.id = 1)
    ∧ applyPatches [] (fetchLe [patchV1, patchAddExtra] docWithExtra.id 1) =
        Except.ok [("title", JValue.str "v1")]
    ∧ rollback opts0 docWithExtra [patchV1, patchAddExtra] 1 none 9 9 =
        Except.ok ({ docWithExtra with original := docWithExtra.data },
          [patchV1, patchAddExtra], none)
    ∧ ({ docWithExtra with original := docWithExtra.data } : Doc).data ≠
        [("title", JValue.str "v1")]
    ∧ ¬ objEquiv ({ docWithExtra with original := docWithExtra.data } : Doc).data
        [("title", JValue.str "v1")] := by
  refine ⟨by decide, ⟨by decide, rfl, rfl⟩, rfl, rfl, by decide, ?_⟩
  intro h
  have := h "extra"
  simp [docWithExtra, objGet] at this

/-- C1 (amended): for a valid non-latest target patch id, `rollback`
fetches exactly the patch records with id at most the target, ordered
ascending by creation date, replays them against the empty object, sets
every field of the reconstructed state on the document (fields outside
that state are left in place) and commits through the normal save path;
afterwards the document's data agrees with the reconstructed state on
every field of that state, and exactly one new patch record is appended
when the committed data differs from the pre-rollback snapshot while no
patch is appended when it does not; existing patch records are never
modified or deleted. -/
theorem rollback_replays_and_commits (opts : Options) (doc : Doc) (store : List Patch)
    (t pid pdat : Nat) (S : Obj)
    (hnew : doc.isNew = false)
    (hcnt : countGe store doc.id t ≠ 1)
    (hmem : ∃ p, p ∈ store ∧ p.ref = doc.id ∧ p.id = t)
    (happ : applyPatches [] (fetchLe store doc.id t) = Except.ok S)
    (hS : keysNodup S)
    (hval : ∀ i ∈ opts.includes, i.required = true →
      (includeValue (docSet doc S) i).isSome) :
    ∃ doc2 store2,
      rollback opts doc store t none pid pdat = Except.ok (doc2, store2, none)
      ∧ doc2.data = objSetAll doc.data S
      ∧ (∀ k v, objGet S k = some v → objGet doc2.data k = some v)
      ∧ (jsDiff doc.original (objSetAll doc.data S) = [] → store2 = store)
      ∧ (jsDiff doc.original (objSetAll doc.data S) ≠ [] →
          ∃ p, store2 = store ++ [p] ∧ p.ref = doc.id
            ∧ p.ops = jsDiff doc.original (objSetAll doc.data S)) := by
  have hfound : ¬ ∀ p ∈ fetchLe store doc.id t, p.id ≠ t := by
    obtain ⟨p, hp, hr, hi⟩ := hmem
    intro hall
    exact hall p ((mem_fetchLe store doc.id t p).mpr ⟨hp, hr, le_of_eq hi⟩) hi
  have heval := rollback_eval opts doc store t none pid pdat S hcnt hfound happ
  simp only [Option.getD_none, Option.map_none', jsMerge_nil] at heval
  have hops := saveOps_docSet doc S hnew
  by_cases hd : jsDiff doc.original (objSetAll doc.data S) = []
  · have hsv := save_ok_empty opts (docSet doc S) store pid pdat (by rw [hops]; exact hd)
    rw [hsv] at heval
    refine ⟨_, _, heval, rfl, ?_, fun _ => rfl, fun h => absurd hd h⟩
    intro k v hv
    exact objSetAll_get_of_some doc.data S k v hS hv
  · have hsv := save_ok_nonempty opts (docSet doc S) store pid pdat
      (by rw [hops]; exact hd) hval
    rw [hsv] at heval
    refine ⟨_, _, heval, rfl, ?_, fun h => absurd h hd, fun _ => ⟨_, rfl, rfl, ?_⟩⟩
    · intro k v hv
      exact objSetAll_get_of_some doc.data S k v hS hv
    · exact hops

/-- Witness for C1 (amended): a v1 - v2 - v3 history rolled back to the
v2 patch commits the v2 state and appends a fourth patch. -/
theorem rollback_replays_and_commits_witness :
    docV3.isNew = false
    ∧ countGe [patchV1, patchV2, patchV3] docV3.id 2 ≠ 1
    ∧ (patchV2 ∈ [patchV1, patchV2, patchV3] ∧ patchV2.ref = docV3.id ∧ patchV2.id = 2)
    ∧ applyPatches [] (fetchLe [patchV1, patchV2, patchV3] docV3.id 2) =
        Except.ok [("title", JValue.str "v2")]
    ∧ ∃ doc2 store2,
        rollback opts0 docV3 [patchV1, patchV2, patchV3] 2 none 9 9 =
          Except.ok (doc2, store2, none)
        ∧ doc2.data = objSetAll docV3.data [("title", JValue.str "v2")]
        ∧ (∀ k v, objGet [("title", JValue.str "v2")] k = some v →
            objGet doc2.data k = some v)
        ∧ (jsDiff docV3.original (objSetAll docV3.data [("title", JValue.str "v2")]) = [] →
            store2 = [patchV1, patchV2, patchV3])
        ∧ (jsDiff docV3.original (objSetAll docV3.data [("title", JValue.str "v2")]) ≠ [] →
            ∃ p, store2 = [patchV1, patchV2, patchV3] ++ [p] ∧ p.ref = docV3.id
              ∧ p.ops = jsDiff docV3.original
                  (objSetAll docV3.data [("title", JValue.str "v2")])) :=
  ⟨rfl, by decide, ⟨by decide, rfl, rfl⟩, rfl,
    rollback_replays_and_commits opts0 docV3 [patchV1, patchV2, patchV3] 2 9 9
      [("title", JValue.str "v2")] rfl (by decide) ⟨patchV2, by decide, rfl, rfl⟩ rfl
      (by decide) (by simp [opts0])⟩

/-- The document and store produced by rolling the v1 - v2 history back
to its first patch. -/
def rbDocV1 : Doc :=
  { id := 1, data := [("title", JValue.str "v1")],
    original := [("title", JValue.str "v1")], tprops := [], isNew := false }

def rbPatchBack : Patch :=
  { id := 7, date := 7, ops := [Op.replace "title" (JValue.str "v1")],
    ref := 1, extra := [] }

/-- Counterexample for C4: rolling back with `extraData` whose `title`
field is "mine" commits the replayed value "v1" for `title`, not the
caller's "mine" — the replayed state is merged over `extraData`
(`_.merge(data, state)`), not the other way around. -/
theorem rollback_extra_overridden_cex :
    rollback opts0 docV2 [patchV1, patchV2] 1
        (some [("title", JValue.str "mine")]) 7 7 =
      Except.ok (rbDocV1, [patchV1, patchV2, rbPatchBack],
        some [("title", JValue.str "v1")])
    ∧ applyPatches [] (fetchLe [patchV1, patchV2] docV2.id 1) =
        Except.ok [("title", JValue.str "v1")]
    ∧ objGet rbDocV1.data "title" = some (JValue.str "v1")
    ∧ objGet [("title", JValue.str "mine")] "title" = some (JValue.str "mine")
    ∧ JValue.str "v1" ≠ JValue.str "mine" :=
  ⟨rfl, rfl, rfl, rfl, by decide⟩

/-- C4 (amended): in `rollback(targetPatchId, extraData)` the replayed
historical state is merged over `extraData`: for every field of the
replayed state the committed document carries the replayed value, and
`extraData` contributes exactly its fields absent from the replayed
state; the merged result is committed through the normal save path. -/
theorem rollback_state_over_extra (opts : Options) (doc : Doc) (store : List Patch)
    (t pid pdat : Nat) (d S : Obj) (doc2 : Doc) (store2 : List Patch) (ex : Option Obj)
    (happ : applyPatches [] (fetchLe store doc.id t) = Except.ok S)
    (hok : rollback opts doc store t (some d) pid pdat = Except.ok (doc2, store2, ex))
    (hd : keysNodup d) (hS : keysNodup S) :
    (∀ k v, objGet S k = some v → objGet doc2.data k = some v)
    ∧ (∀ k v, objGet S k = none → objGet d k = some v →
        objGet doc2.data k = some v) := by
  have hinv := rollback_ok_inv opts doc store t (some d) pid pdat doc2 store2 ex S happ hok
  have hdata : doc2.data = objSetAll doc.data (jsMerge d S) := hinv.1
  have hmnd : keysNodup (jsMerge d S) := keysNodup_jsMerge d S hd hS
  constructor
  · intro k v hv
    rw [hdata]
    exact objSetAll_get_of_some doc.data (jsMerge d S) k v hmnd
      (jsMerge_get_of_some d S k v hv)
  · intro k v hn hv
    rw [hdata]
    have hm : objGet (jsMerge d S) k = some v := by
      rw [jsMerge_get_of_none d S k hn]
      exact hv
    exact objSetAll_get_of_some doc.data (jsMerge d S) k v hmnd hm

/-- Witness for C4 (amended): the conflicting `title` field of
`extraData` loses to the replayed state after a concrete rollback. -/
theorem rollback_state_over_extra_witness :
    applyPatches [] (fetchLe [patchV1, patchV2] docV2.id 1) =
      Except.ok [("title", JValue.str "v1")]
    ∧ rollback opts0 docV2 [patchV1, patchV2] 1
        (some [("title", JValue.str "mine")]) 7 7 =
      Except.ok (rbDocV1, [patchV1, patchV2, rbPatchBack],
        some [("title", JValue.str "v1")])
    ∧ (∀ k v, objGet [("title", JValue.str "v1")] k = some v →
        objGet rbDocV1.data k = some v) :=
  ⟨rfl, rfl,
    (rollback_state_over_extra opts0 docV2 [patchV1, patchV2] 1 7 7
      [("title", JValue.str "mine")] [("title", JValue.str "v1")]
      rbDocV1 [patchV1, patchV2, rbPatchBack] (some [("title", JValue.str "v1")])
      rfl rfl (by decide) (by decide)).1⟩

/-- Counterexample for C10: rolling back with `extraData` equal to the
(non-empty) replayed state returns the caller's object with contents
identical to what was passed in, refuting that the object "no longer
equals what was passed in whenever the replayed state is non-empty". -/
theorem rollback_extra_unchanged_cex :
    rollback opts0 docV2 [patchV1, patchV2] 1
        (some [("title", JValue.str "v1")]) 7 7 =
      Except.ok (rbDocV1, [patchV1, patchV2, rbPatchBack],
        some [("title", JValue.str "v1")])
    ∧ applyPatches [] (fetchLe [patchV1, patchV2] docV2.id 1) =
        Except.ok [("title", JValue.str "v1")]
    ∧ ([("title", JValue.str "v1")] : Obj) ≠ [] :=
  ⟨rfl, rfl, by decide⟩

/-- C10 (amended): `rollback(targetPatchId, extraData)` mutates the
caller-supplied `extraData` object in place: after a successful
rollback its contents are the merge of the replayed state over its
former contents (so it differs from what was passed exactly when some
field of the replayed state was absent from, or differed from,
`extraData`; it can be unchanged when they already agreed). -/
theorem rollback_mutates_extra_contents (opts : Options) (doc : Doc)
    (store : List Patch) (t pid pdat : Nat) (d S : Obj)
    (doc2 : Doc) (store2 : List Patch) (ex : Option Obj)
    (happ : applyPatches [] (fetchLe store doc.id t) = Except.ok S)
    (hok : rollback opts doc store t (some d) pid pdat = Except.ok (doc2, store2, ex)) :
    ex = some (jsMerge d S) := by
  have hinv := rollback_ok_inv opts doc store t (some d) pid pdat doc2 store2 ex S happ hok
  exact hinv.2.1

/-- Witness for C10 (amended): after a concrete rollback with a
disjoint `extraData` field, the caller's object holds the merged
contents. -/
theorem rollback_mutates_extra_contents_witness :
    applyPatches [] (fetchLe [patchV1, patchV2] docV2.id 1) =
      Except.ok [("title", JValue.str "v1")]
    ∧ rollback opts0 docV2 [patchV1, patchV2] 1
        (some [("user", JValue.num 5)]) 7 7 =
      Except.ok
        ({ id := 1, data := [("title", JValue.str "v1"), ("user", JValue.num 5)],
           original := [("title", JValue.str "v1"), ("user", JValue.num 5)],
           tprops := [], isNew := false },
         [patchV1, patchV2,
          { id := 7, date := 7,
            ops := [Op.replace "title" (JValue.str "v1"), Op.add "user" (JValue.num 5)],
            ref := 1, extra := [] }],
         some [("user", JValue.num 5), ("title", JValue.str "v1")])
    ∧ some [("user", JValue.num 5), ("title", JValue.str "v1")] =
        some (jsMerge [("user", JValue.num 5)] [("title", JValue.str "v1")]) :=
  ⟨rfl, rfl,
    rollback_mutates_extra_contents opts0 docV2 [patchV1, patchV2] 1 7 7
      [("user", JValue.num 5)] [("title", JValue.str "v1")]
      { id := 1, data := [("title", JValue.str "v1"), ("user", JValue.num 5)],
        original := [("title", JValue.str "v1"), ("user", JValue.num 5)],
        tprops := [], isNew := false }
      [patchV1, patchV2,
       { id := 7, date := 7,
         ops := [Op.replace "title" (JValue.str "v1"), Op.add "user" (JValue.num 5)],
         ref := 1, extra := [] }]
      (some [("user", JValue.num 5), ("title", JValue.str "v1")]) rfl rfl⟩

end MPatchHistory
